import Mathlib

/-!
Verification of the codats experiment-run controller.

Shallow embedding of the two source files:
* `src/datasets/tfrecord.py` — dataset-file naming and the tfrecord writer;
* `src/main.py` — run-identity resolution (`get_directory_names`) and the
  step-cadence training loop of `main` (lines 124–159).

External collaborators (TensorFlow, `metrics`, `checkpoints`, `file_utils`)
are modelled at their interface boundary: hooks are injected functions, and
side effects are recorded as an explicit trace of events.
-/

namespace Codats

/-- Error taxonomy of the naming / writing functions.  Both correspond to
Python `assert` failures; the spec names them `InvalidArgument` (bad split
name, bad domain-pair target name) and `ShapeMismatch` (mismatched parallel
sequence lengths in `write_tfrecord`). -/
inductive TfError where
  | invalidArgument
  | shapeMismatch
deriving DecidableEq, Repr

/-- A serialized record produced by `create_tf_example` in
`src/datasets/tfrecord.py`: three parallel fields `x`, `y`, `domain`.
The tensor encoding is opaque, so the field types are parameters. -/
structure TFExample (α β γ : Type) where
  x : α
  y : β
  domain : γ
deriving DecidableEq, Repr

/-- Embeds `create_tf_example(x, y, domain)`: builds the three-field record. -/
def create_tf_example {α β γ : Type} (x : α) (y : β) (domain : γ) : TFExample α β γ :=
  ⟨x, y, domain⟩

/-- The writer loop of `write_tfrecord`: `for i in range(len(x)):
writer.write(create_tf_example(x[i], y[i], domain[i]))`, i.e. one record per
index in increasing order.  (Equal lengths are asserted before this loop
runs, so the simultaneous recursion visits exactly the indices of `x`.) -/
def writeRecords {α β γ : Type} : List α → List β → List γ → List (TFExample α β γ)
  | a :: as, b :: bs, c :: cs => create_tf_example a b c :: writeRecords as bs cs
  | _, _, _ => []

/-- Embeds `write_tfrecord(filename, x, y, domain)`.  The two
`assert len(x) == len(y)` / `assert len(x) == len(domain)` guards fail with
`ShapeMismatch`; otherwise the file receives the records in write order,
modelled as the returned list. -/
def write_tfrecord {α β γ : Type} (filename : String) (x : List α) (y : List β)
    (domain : List γ) : Except TfError (List (TFExample α β γ)) :=
  if x.length = y.length then
    if x.length = domain.length then
      .ok (writeRecords x y domain)
    else .error .shapeMismatch
  else .error .shapeMismatch

/-- The "skip" list of `tfrecord_filename`: the pairing-insensitive domains. -/
def skip : List String := ["office_amazon", "office_dslr", "office_webcam"]

/-- Python's lexicographic string comparison (by code point), used by
`names.sort()` in `tfrecord_filename`; written as an explicit recursion on
the character lists so that it is kernel-computable. -/
def strLt : List Char → List Char → Bool
  | [], [] => false
  | [], _ :: _ => true
  | _ :: _, [] => false
  | a :: as, b :: bs =>
    if a.toNat < b.toNat then true
    else if b.toNat < a.toNat then false
    else strLt as bs

/-- Embeds `tfrecord_filename(domain1, domain2, dataset_name, train_or_test)`.
The two `assert`s become `InvalidArgument` errors; `names.sort()` on the
two-element list `[domain1, domain2]` is the `strLt` comparison picking the
lexicographically smaller name first. -/
def tfrecord_filename (domain1 : String) (domain2 : Option String)
    (dataset_name : String) (train_or_test : String) : Except TfError String :=
  if train_or_test ∈ ["train", "valid", "test"] then
    if dataset_name = domain1 ∨ domain2 = some dataset_name then
      match domain2 with
      | none => .ok (dataset_name ++ "_" ++ train_or_test ++ ".tfrecord")
      | some d2 =>
        if domain1 ∈ skip ∧ d2 ∈ skip then
          .ok (dataset_name ++ "_" ++ train_or_test ++ ".tfrecord")
        else
          let lo := if strLt d2.data domain1.data then d2 else domain1
          let hi := if strLt d2.data domain1.data then domain1 else d2
          .ok (lo ++ "_and_" ++ hi ++ "_" ++ dataset_name ++ "_" ++ train_or_test ++ ".tfrecord")
    else .error .invalidArgument
  else .error .invalidArgument

/-- Embeds `tfrecord_filename_simple(dataset_name, train_or_test)`. -/
def tfrecord_filename_simple (dataset_name : String) (train_or_test : String) :
    Except TfError String :=
  if train_or_test ∈ ["train", "valid", "test"] then
    .ok (dataset_name ++ "_" ++ train_or_test ++ ".tfrecord")
  else .error .invalidArgument

/-- `os.path.join` for the relative directory names built by
`get_directory_names`. -/
def pathJoin (a b : String) : String := a ++ "/" ++ b

/-- A Python runtime error surfaced by the embedding: `TypeError`, raised by
`+` on a `str` and an `int`. -/
inductive PyError where
  | typeError
deriving DecidableEq, Repr

/-- A dynamically-typed Python value as far as `get_directory_names` needs:
a string or an integer (the `FLAGS.uid` flag is declared with
`flags.DEFINE_integer`, so its runtime value is an `int`). -/
inductive PyVal where
  | str (s : String)
  | int (n : Int)
deriving DecidableEq, Repr

/-- Python's `+` on such values: `str + str` concatenates, `int + int` adds,
and a mixed application raises `TypeError`. -/
def pyAdd : PyVal → PyVal → Except PyError PyVal
  | .str a, .str b => .ok (.str (a ++ b))
  | .int a, .int b => .ok (.int (a + b))
  | _, _ => .error .typeError

/-- `os.path.join` requires a string component; an `int` raises `TypeError`. -/
def asStr : PyVal → Except PyError String
  | .str s => .ok s
  | .int _ => .error .typeError

/-- Embeds `get_directory_names()` from `src/main.py`.  The flag values are
passed as arguments; `uid : Int` because the flag is declared with
`flags.DEFINE_integer` (`src/main.py` line 30).  Line 51 computes
`prefix = FLAGS.dataset+"-"+FLAGS.uid+"-"+FLAGS.method` with Python `+`,
left-associated, and with no `str()` around `FLAGS.uid` — embedded with
`pyAdd` so that the `str + int` `TypeError` it raises is preserved, and an
exception propagates out as the `Except` error.  The directory-listing
collaborator `file_utils.last_modified_number(FLAGS.logdir, prefix+"*")` is
not part of the sources, so its result — the highest trailing numeric suffix
among existing log entries matching the prefix, or `None` — is injected as
`lastNum`. -/
def get_directory_names (modeldir logdir dataset : String) (uid : Int)
    (method : String) (debugnum : Int) (debug subdir : Bool)
    (lastNum : Option Nat) : Except PyError (String × String) := do
  let p1 ← pyAdd (.str dataset) (.str "-")
  let p2 ← pyAdd p1 (.int uid)
  let p3 ← pyAdd p2 (.str "-")
  let p4 ← pyAdd p3 (.str method)
  let base ← asStr p4
  if debugnum ≥ 0 then
    let name := base ++ "-" ++ toString debugnum
    return (pathJoin modeldir name, pathJoin logdir name)
  else if debug then
    let attempt := match lastNum with
      | some n => n + 1
      | none => 1
    let name := base ++ "-" ++ toString attempt
    return (pathJoin modeldir name, pathJoin logdir name)
  else if subdir then
    return (pathJoin modeldir base, pathJoin logdir base)
  else
    return (modeldir, logdir)

/-- Modelled from the spec: the intended `get_directory_names`, in which the
integer uid flag is rendered as its decimal string before concatenation —
the spec's RunIdentity takes `uid: string`, and the flag's help text says
the uid is "saved in the log/model folder names", so `str(FLAGS.uid)` is the
clear intent of `src/main.py` line 51.  Identical to the source otherwise. -/
def get_directory_names_intended (modeldir logdir dataset uid method : String)
    (debugnum : Int) (debug subdir : Bool) (lastNum : Option Nat) : String × String :=
  let base := dataset ++ "-" ++ uid ++ "-" ++ method
  if debugnum ≥ 0 then
    let name := base ++ "-" ++ toString debugnum
    (pathJoin modeldir name, pathJoin logdir name)
  else if debug then
    let attempt := match lastNum with
      | some n => n + 1
      | none => 1
    let name := base ++ "-" ++ toString attempt
    (pathJoin modeldir name, pathJoin logdir name)
  else if subdir then
    (pathJoin modeldir base, pathJoin logdir base)
  else
    (modeldir, logdir)

/-- Modelled from the spec (§4.2 of the spec, the four resolution modes, as
restated by the directory-resolution claim): explicit debug number when
`debugNumber ≥ 0`, else auto-increment debug mode using `(max + 1)` (or `1`
when no entry exists), else subdirectory mode `{root}/{base}`, else the
configured roots directly.  Used only as the spec-side reference for the
refinement theorem about `get_directory_names`. -/
def resolve_spec (modeldir logdir dataset uid method : String)
    (debugnum : Int) (debug subdir : Bool) (lastNum : Option Nat) : String × String :=
  let base := dataset ++ "-" ++ uid ++ "-" ++ method
  if 0 ≤ debugnum then
    (modeldir ++ "/" ++ (base ++ "-" ++ toString debugnum),
     logdir ++ "/" ++ (base ++ "-" ++ toString debugnum))
  else if debug then
    let n := match lastNum with
      | some m => m + 1
      | none => 1
    (modeldir ++ "/" ++ (base ++ "-" ++ toString n),
     logdir ++ "/" ++ (base ++ "-" ++ toString n))
  else if subdir then
    (modeldir ++ "/" ++ base, logdir ++ "/" ++ base)
  else
    (modeldir, logdir)

/-- The cadence flags consumed by the training loop of `main`
(`src/main.py`), with the same names as the `absl` flags. -/
structure Flags where
  steps : Nat
  model_steps : Nat
  log_train_steps : Nat
  log_val_steps : Nat
  log_plots_steps : Nat
  time_training : Bool
deriving DecidableEq, Repr

/-- One observable side effect of an iteration of the training loop.  `S` is
the opaque type of validation scores returned by the metrics collaborator.
Each hook invocation records the loop index `i` it was issued at;
`checkpoint` additionally records the step argument `int(global_step - 1)`
and the score passed to `checkpoint_manager.save`, and `timing`/`log`
record the printed `int(global_step)`. -/
inductive Event (S : Type) where
  | train_step (i : Nat)
  | timing (gs : Nat)
  | log (gs : Nat)
  | train_metrics (i : Nat)
  | validation (i : Nat)
  | checkpoint (i : Nat) (step : Nat) (score : Option S)
  | plot (i : Nat)
  | finished
deriving DecidableEq, Repr

/-- A conditionally-emitted event: the event list of an `if cond: hook()`
statement. -/
def optEv {α : Type} (c : Bool) (e : α) : List α := if c then [e] else []

/-- The validation condition of `main`:
`i % FLAGS.log_val_steps == 0 or i == FLAGS.steps`. -/
def valCond (f : Flags) (i : Nat) : Bool :=
  i % f.log_val_steps == 0 || i == f.steps

/-- The `validation_accuracy` captured at iteration `i`: the score returned
by the validation hook when the validation condition holds, else `None`. -/
def capturedScore {S : Type} (f : Flags) (val : Nat → Option S) (i : Nat) : Option S :=
  if valCond f i then val i else none

/-- The checkpoint condition of `main`:
`i % FLAGS.model_steps == 0 or validation_accuracy is not None`. -/
def ckptCond {S : Type} (f : Flags) (val : Nat → Option S) (i : Nat) : Bool :=
  i % f.model_steps == 0 || (capturedScore f val i).isSome

/-- The body of one iteration of the training loop (`src/main.py` lines
125–156).  `gs` is the value of `global_step` on entry; the body first runs
the training step and increments `global_step`, then either (time-training
mode) prints a timing record and `continue`s, or fires the cadence-gated
hooks.  Returns the new `global_step` and the events, in program order. -/
def runBody {S : Type} (f : Flags) (val : Nat → Option S) (gs i : Nat) :
    Nat × List (Event S) :=
  let gs' := gs + 1
  if f.time_training then
    (gs', [.train_step i, .timing gs'])
  else
    (gs',
      [Event.train_step i]
      ++ optEv (i % 100 == 0) (.log gs')
      ++ optEv (i % f.log_train_steps == 0) (.train_metrics i)
      ++ optEv (valCond f i) (.validation i)
      ++ optEv (ckptCond f val i) (.checkpoint i (gs' - 1) (capturedScore f val i))
      ++ optEv (i % f.log_plots_steps == 0) (.plot i))

/-- Runs the loop body over a list of loop indices, threading `global_step`. -/
def runSteps {S : Type} (f : Flags) (val : Nat → Option S) :
    Nat → List Nat → Nat × List (Event S)
  | gs, [] => (gs, [])
  | gs, i :: is =>
    let p := runBody f val gs i
    let q := runSteps f val p.1 is
    (q.1, p.2 ++ q.2)

/-- Embeds the training loop and finished marker of `main` (`src/main.py`
lines 124–159): `for i in range(int(global_step), FLAGS.steps+1): ...`
followed by `file_utils.write_finished(log_dir)`.  `resume` is the value of
`global_step` after `checkpoint_manager.restore_latest()`. -/
def main_loop {S : Type} (f : Flags) (val : Nat → Option S) (resume : Nat) :
    List (Event S) :=
  (runSteps f val resume (List.range' resume (f.steps + 1 - resume))).2
    ++ [Event.finished]

/-- Recognizes validation-hook events in a trace. -/
def isValidationEv {S : Type} : Event S → Bool
  | .validation _ => true
  | _ => false

/-- The cadence configuration of the cadence-gating claim:
`trainEvery = 500`, `valEvery = 4000`, `totalSteps = 8000`, time-only mode
off; `model_steps` and `log_plots_steps` keep their flag defaults (4000). -/
def cadenceFlags : Flags := ⟨8000, 4000, 500, 4000, 4000, false⟩

/-- A tiny configuration (2 iterations, every cadence 1) used for concrete
checks of the checkpoint step argument. -/
def tinyFlags : Flags := ⟨1, 1, 1, 1, 1, false⟩

/-- The tiny configuration with time-only mode switched on. -/
def tinyTimeFlags : Flags := ⟨1, 1, 1, 1, 1, true⟩

/-- A validation hook that never produces a score. -/
def valNone : Nat → Option Nat := fun _ => none

/-! ### Helper lemmas about the lexicographic comparison -/

theorem strLt_asymm : ∀ {as bs : List Char}, strLt as bs = true → strLt bs as = false := by
  intro as
  induction as with
  | nil =>
    intro bs h
    cases bs with
    | nil => simp [strLt] at h
    | cons b bs => simp [strLt]
  | cons a as ih =>
    intro bs h
    cases bs with
    | nil => simp [strLt] at h
    | cons b bs =>
      by_cases h1 : a.toNat < b.toNat
      · simp [strLt, Nat.lt_asymm h1, h1]
      · by_cases h2 : b.toNat < a.toNat
        · simp [strLt, h1, h2] at h
        · have h' : strLt as bs = true := by simpa [strLt, h1, h2] using h
          simp [strLt, h1, h2, ih h']

theorem strLt_total_of_ne : ∀ {as bs : List Char}, as ≠ bs →
    strLt as bs = true ∨ strLt bs as = true := by
  intro as
  induction as with
  | nil =>
    intro bs hne
    cases bs with
    | nil => exact absurd rfl hne
    | cons b bs => left; rfl
  | cons a as ih =>
    intro bs hne
    cases bs with
    | nil => right; rfl
    | cons b bs =>
      by_cases h1 : a.toNat < b.toNat
      · left; simp [strLt, h1]
      · by_cases h2 : b.toNat < a.toNat
        · right; simp [strLt, h2]
        · have hval : a.toNat = b.toNat := by omega
          have hab : a = b := Char.ext (UInt32.ext hval)
          have hts : as ≠ bs := fun h => hne (by rw [hab, h])
          rcases ih hts with h | h
          · left; simp [strLt, h1, h2, h]
          · right; simp [strLt, h1, h2, h]

/-- The else-branch of `tfrecord_filename` on a present, non-skip pair:
sorted prefix followed by dataset name and split. -/
theorem tfrecord_filename_pair (d1 d2 name split : String)
    (hs : split ∈ (["train", "valid", "test"] : List String))
    (hn : name = d1 ∨ some d2 = some name)
    (hsk : ¬(d1 ∈ skip ∧ d2 ∈ skip)) :
    tfrecord_filename d1 (some d2) name split =
      .ok ((if strLt d2.data d1.data then d2 else d1) ++ "_and_" ++
           (if strLt d2.data d1.data then d1 else d2) ++ "_" ++ name ++ "_" ++
           split ++ ".tfrecord") := by
  unfold tfrecord_filename
  rw [if_pos hs, if_pos hn]
  dsimp only
  rw [if_neg hsk]

/-! ### Claim theorems about the naming policy and writer -/

/-- Claim C3: for distinct domains `A`, `B` not both in the
pairing-insensitive skip set, any `dataset_name ∈ {A, B}` and any valid
split, `tfrecord_filename` is independent of the order of its two domain
arguments: the pair prefix is the lexicographic sort of `{A, B}`. -/
theorem tfrecord_filename_comm (A B name split : String) (hAB : A ≠ B)
    (hsk : ¬(A ∈ skip ∧ B ∈ skip)) (hname : name = A ∨ name = B)
    (hsplit : split ∈ (["train", "valid", "test"] : List String)) :
    tfrecord_filename A (some B) name split = tfrecord_filename B (some A) name split := by
  have hL : name = A ∨ some B = some name := hname.imp id (fun h => by rw [h])
  have hR : name = B ∨ some A = some name := hname.symm.imp id (fun h => by rw [h])
  have hsk' : ¬(B ∈ skip ∧ A ∈ skip) := fun h => hsk ⟨h.2, h.1⟩
  rw [tfrecord_filename_pair A B name split hsplit hL hsk,
      tfrecord_filename_pair B A name split hsplit hR hsk']
  have hdata : B.data ≠ A.data := fun hd => hAB (String.ext hd).symm
  by_cases hba : strLt B.data A.data = true
  · have hab : strLt A.data B.data = false := strLt_asymm hba
    rw [if_pos hba, if_pos hba, if_neg (by simp [hab]), if_neg (by simp [hab])]
  · have hab : strLt A.data B.data = true := by
      rcases strLt_total_of_ne hdata with h | h
      · exact absurd h hba
      · exact h
    rw [if_neg hba, if_neg hba, if_pos hab, if_pos hab]

/-- Witness for the commutativity claim at the concrete pair from the spec. -/
theorem tfrecord_filename_comm_witness :
    ("A" : String) ≠ "B" ∧
      tfrecord_filename "A" (some "B") "A" "test" =
        tfrecord_filename "B" (some "A") "A" "test" :=
  ⟨by decide,
   tfrecord_filename_comm "A" "B" "A" "test" (by decide) (by decide)
     (Or.inl rfl) (by decide)⟩

/-- Claim C8: the three concrete naming examples from the spec. -/
theorem tfrecord_filename_examples :
    tfrecord_filename "office_amazon" (some "office_webcam") "office_amazon" "train"
        = .ok "office_amazon_train.tfrecord"
    ∧ tfrecord_filename "A" (some "B") "A" "test" = .ok "A_and_B_A_test.tfrecord"
    ∧ tfrecord_filename "B" (some "A") "A" "test" = .ok "A_and_B_A_test.tfrecord" :=
  ⟨rfl, rfl, rfl⟩

/-- Claim C9: `tfrecord_filename` fails with `InvalidArgument` exactly when
the split is invalid or the dataset name is neither domain, and returns a
name on every other input; `tfrecord_filename_simple` fails exactly when the
split is invalid. -/
theorem tfrecord_error_iff :
    (∀ (d1 : String) (d2 : Option String) (name split : String),
        tfrecord_filename d1 d2 name split = .error .invalidArgument
          ↔ (split ∉ (["train", "valid", "test"] : List String)
             ∨ ¬(name = d1 ∨ d2 = some name)))
    ∧ (∀ (d1 : String) (d2 : Option String) (name split : String),
        (∃ s, tfrecord_filename d1 d2 name split = .ok s)
          ↔ (split ∈ (["train", "valid", "test"] : List String)
             ∧ (name = d1 ∨ d2 = some name)))
    ∧ (∀ (name split : String),
        tfrecord_filename_simple name split = .error .invalidArgument
          ↔ split ∉ (["train", "valid", "test"] : List String))
    ∧ (∀ (name split : String),
        (∃ s, tfrecord_filename_simple name split = .ok s)
          ↔ split ∈ (["train", "valid", "test"] : List String)) := by
  have hmain : ∀ (d1 : String) (d2 : Option String) (name split : String),
      (tfrecord_filename d1 d2 name split = .error .invalidArgument
        ↔ (split ∉ (["train", "valid", "test"] : List String)
           ∨ ¬(name = d1 ∨ d2 = some name)))
      ∧ ((∃ s, tfrecord_filename d1 d2 name split = .ok s)
        ↔ (split ∈ (["train", "valid", "test"] : List String)
           ∧ (name = d1 ∨ d2 = some name))) := by
    intro d1 d2 name split
    unfold tfrecord_filename
    by_cases hs : split ∈ (["train", "valid", "test"] : List String)
    · rw [if_pos hs]
      by_cases hn : name = d1 ∨ d2 = some name
      · rw [if_pos hn]
        cases d2 with
        | none =>
          dsimp only
          have hd1 : name = d1 := hn.resolve_right (fun h => Option.noConfusion h)
          simp [hs, hd1]
        | some d2' =>
          dsimp only
          have hn' : name = d1 ∨ d2' = name := hn.imp id (fun h => by injection h)
          split_ifs <;> simp [hs, hn']
      · rw [if_neg hn]
        simp [hs, hn]
    · rw [if_neg hs]
      simp [hs]
  refine ⟨fun d1 d2 name split => (hmain d1 d2 name split).1,
          fun d1 d2 name split => (hmain d1 d2 name split).2, ?_, ?_⟩
  · intro name split
    unfold tfrecord_filename_simple
    by_cases hs : split ∈ (["train", "valid", "test"] : List String) <;>
      simp [hs]
  · intro name split
    unfold tfrecord_filename_simple
    by_cases hs : split ∈ (["train", "valid", "test"] : List String) <;>
      simp [hs]

theorem writeRecords_length {α β γ : Type} :
    ∀ (x : List α) (y : List β) (d : List γ), x.length = y.length →
      x.length = d.length → (writeRecords x y d).length = x.length := by
  intro x
  induction x with
  | nil =>
    intro y d h1 h2
    cases y with
    | nil =>
      cases d with
      | nil => rfl
      | cons c cs => simp at h2
    | cons b bs => simp at h1
  | cons a as ih =>
    intro y d h1 h2
    cases y with
    | nil => simp at h1
    | cons b bs =>
      cases d with
      | nil => simp at h2
      | cons c cs =>
        simpa [writeRecords] using ih bs cs (by simpa using h1) (by simpa using h2)

theorem writeRecords_getElem {α β γ : Type} :
    ∀ (x : List α) (y : List β) (d : List γ), x.length = y.length →
      x.length = d.length → ∀ i : Nat,
      (writeRecords x y d)[i]? = (x[i]?.bind fun a => y[i]?.bind fun b =>
        d[i]?.map fun c => create_tf_example a b c) := by
  intro x
  induction x with
  | nil =>
    intro y d h1 h2 i
    cases y with
    | nil =>
      cases d with
      | nil => simp [writeRecords]
      | cons c cs => simp at h2
    | cons b bs => simp at h1
  | cons a as ih =>
    intro y d h1 h2 i
    cases y with
    | nil => simp at h1
    | cons b bs =>
      cases d with
      | nil => simp at h2
      | cons c cs =>
        cases i with
        | zero => simp [writeRecords]
        | succ n =>
          simpa [writeRecords] using
            ih bs cs (by simpa using h1) (by simpa using h2) n

/-- Claim C10: the writer fails with `ShapeMismatch` exactly when the three
sequences differ in length; on equal lengths it writes one record per index
in increasing order, each built from `(x[i], y[i], domain[i])`. -/
theorem write_tfrecord_shape (α β γ : Type) (filename : String)
    (x : List α) (y : List β) (d : List γ) :
    (write_tfrecord filename x y d = .error .shapeMismatch
      ↔ (x.length ≠ y.length ∨ x.length ≠ d.length))
    ∧ (x.length = y.length → x.length = d.length →
        write_tfrecord filename x y d = .ok (writeRecords x y d)
        ∧ (writeRecords x y d).length = x.length
        ∧ ∀ i : Nat, (writeRecords x y d)[i]?
            = (x[i]?.bind fun a => y[i]?.bind fun b =>
                d[i]?.map fun c => create_tf_example a b c)) := by
  constructor
  · unfold write_tfrecord
    by_cases h1 : x.length = y.length
    · by_cases h2 : x.length = d.length
      · rw [if_pos h1, if_pos h2]
        constructor
        · intro h
          exact absurd h (by simp)
        · rintro (h | h)
          · exact absurd h1 h
          · exact absurd h2 h
      · rw [if_pos h1, if_neg h2]
        exact ⟨fun _ => Or.inr h2, fun _ => rfl⟩
    · rw [if_neg h1]
      exact ⟨fun _ => Or.inl h1, fun _ => rfl⟩
  · intro h1 h2
    exact ⟨by unfold write_tfrecord; rw [if_pos h1, if_pos h2],
           writeRecords_length x y d h1 h2,
           writeRecords_getElem x y d h1 h2⟩

/-- Witness for the writer claim on concrete equal-length sequences. -/
theorem write_tfrecord_shape_witness :
    write_tfrecord "f.tfrecord" ([0, 1] : List Nat) ([2, 3] : List Nat)
        ([4, 5] : List Nat) = .ok (writeRecords [0, 1] [2, 3] [4, 5]) :=
  ((write_tfrecord_shape Nat Nat Nat "f.tfrecord" [0, 1] [2, 3] [4, 5]).2 rfl rfl).1

/-! ### Claim theorems about run-identity resolution -/

/-- Claim C6 (code bug): the claimed base name `"{dataset}-{uid}-{method}"`
is what the spec intends, but the code never produces it: `FLAGS.uid` is an
integer flag, so the concatenation at `src/main.py` line 51 raises
`TypeError` on every call.  At the failing input the embedded code returns
the `TypeError`, while the intended resolution (uid rendered as a string)
yields exactly the claimed base name. -/
theorem base_name_uid_type_error :
    get_directory_names "models" "logs" "ucihar" 0 "dann" (-1) false true none
        = .error .typeError
    ∧ get_directory_names_intended "models" "logs" "ucihar" "0" "dann" (-1) false true none
        = (pathJoin "models" ("ucihar" ++ "-" ++ "0" ++ "-" ++ "dann"),
           pathJoin "logs" ("ucihar" ++ "-" ++ "0" ++ "-" ++ "dann")) :=
  ⟨rfl, rfl⟩

/-- Claim C7 (code bug): the four mutually exclusive resolution modes are in
the source, but the `TypeError` from the str/int concatenation at
`src/main.py` line 51 fires before any branch runs, so for every input —
whatever `debugnum`, `debug`, `subdir` and the listing result are — the code
raises instead of resolving; no mode is reachable.  The intended resolution
(uid rendered as a string) does realize the spec's four modes in precedence
order. -/
theorem directory_modes_unreachable :
    (∀ (modeldir logdir dataset : String) (uid : Int) (method : String)
        (debugnum : Int) (debug subdir : Bool) (lastNum : Option Nat),
      get_directory_names modeldir logdir dataset uid method debugnum debug subdir lastNum
        = .error .typeError)
    ∧ (∀ (modeldir logdir dataset uid method : String)
        (debugnum : Int) (debug subdir : Bool) (lastNum : Option Nat),
      get_directory_names_intended modeldir logdir dataset uid method debugnum debug subdir lastNum
        = resolve_spec modeldir logdir dataset uid method debugnum debug subdir lastNum) :=
  ⟨fun _ _ _ _ _ _ _ _ _ => rfl, fun _ _ _ _ _ _ _ _ _ => rfl⟩

/-! ### Helper lemmas about the training loop trace -/

theorem mem_optEv {α : Type} {a e : α} {c : Bool} :
    a ∈ optEv c e ↔ c = true ∧ a = e := by
  cases c <;> simp [optEv]

theorem optEv_true {α : Type} (e : α) : optEv true e = [e] := rfl

theorem optEv_false {α : Type} (e : α) : optEv false e = [] := rfl

theorem runBody_fst {S : Type} (f : Flags) (val : Nat → Option S) (gs i : Nat) :
    (runBody f val gs i).1 = gs + 1 := by
  cases h : f.time_training <;> simp [runBody, h]

theorem runSteps_range' {S : Type} (f : Flags) (val : Nat → Option S) :
    ∀ (n r : Nat), runSteps f val r (List.range' r n)
      = (r + n, (List.range' r n).flatMap fun i => (runBody f val i i).2) := by
  intro n
  induction n with
  | zero => intro r; simp [runSteps]
  | succ n ih =>
    intro r
    have hr : List.range' r (n + 1) = r :: List.range' (r + 1) n := rfl
    rw [hr]
    simp only [runSteps]
    rw [runBody_fst, ih (r + 1), List.flatMap_cons]
    simp only [Prod.mk.injEq]
    exact ⟨by omega, by trivial⟩

theorem main_loop_eq {S : Type} (f : Flags) (val : Nat → Option S) (r : Nat) :
    main_loop f val r
      = ((List.range' r (f.steps + 1 - r)).flatMap fun i => (runBody f val i i).2)
        ++ [Event.finished] := by
  rw [main_loop, runSteps_range']

theorem runBody_snd_of_not_time {S : Type} (f : Flags) (val : Nat → Option S)
    (h : f.time_training = false) (i : Nat) :
    (runBody f val i i).2 =
      [Event.train_step i]
      ++ optEv (i % 100 == 0) (.log (i + 1))
      ++ optEv (i % f.log_train_steps == 0) (.train_metrics i)
      ++ optEv (valCond f i) (.validation i)
      ++ optEv (ckptCond f val i) (.checkpoint i i (capturedScore f val i))
      ++ optEv (i % f.log_plots_steps == 0) (.plot i) := by
  simp [runBody, h]

theorem validation_mem_runBody {S : Type} (f : Flags) (val : Nat → Option S)
    (h : f.time_training = false) (i j : Nat) :
    Event.validation j ∈ (runBody f val i i).2 ↔ (valCond f i = true ∧ j = i) := by
  rw [runBody_snd_of_not_time f val h]
  simp [mem_optEv]

theorem checkpoint_mem_runBody {S : Type} (f : Flags) (val : Nat → Option S)
    (h : f.time_training = false) (i j st : Nat) (sc : Option S) :
    Event.checkpoint j st sc ∈ (runBody f val i i).2 ↔
      (ckptCond f val i = true ∧ j = i ∧ st = i ∧ sc = capturedScore f val i) := by
  rw [runBody_snd_of_not_time f val h]
  simp [mem_optEv]

theorem validation_mem_main_loop {S : Type} (f : Flags) (val : Nat → Option S)
    (h : f.time_training = false) (r j : Nat) :
    Event.validation j ∈ main_loop f val r ↔
      (r ≤ j ∧ j ≤ f.steps ∧ valCond f j = true) := by
  rw [main_loop_eq]
  simp only [List.mem_append, List.mem_flatMap, List.mem_singleton]
  constructor
  · rintro (⟨i, hi, hmem⟩ | hfin)
    · rcases (validation_mem_runBody f val h i j).mp hmem with ⟨hc, rfl⟩
      rcases List.mem_range'_1.mp hi with ⟨h1, h2⟩
      exact ⟨h1, by omega, hc⟩
    · exact absurd hfin (by simp)
  · rintro ⟨h1, h2, hc⟩
    left
    exact ⟨j, List.mem_range'_1.mpr ⟨h1, by omega⟩,
      (validation_mem_runBody f val h j j).mpr ⟨hc, rfl⟩⟩

theorem filter_flatMap {α β : Type} (l : List α) (g : α → List β) (p : β → Bool) :
    (l.flatMap g).filter p = l.flatMap fun a => (g a).filter p := by
  induction l with
  | nil => rfl
  | cons x xs ih => simp [List.flatMap_cons, List.filter_append, ih]

theorem filter_validation_runBody {S : Type} (f : Flags) (val : Nat → Option S)
    (h : f.time_training = false) (i : Nat) :
    ((runBody f val i i).2).filter isValidationEv
      = optEv (valCond f i) (Event.validation i) := by
  rw [runBody_snd_of_not_time f val h]
  simp [List.filter_append, optEv, apply_ite (List.filter isValidationEv),
    isValidationEv, List.filter]

theorem flatMap_optEv {α : Type} (l : List Nat) (c : Nat → Bool) (g : Nat → α) :
    (l.flatMap fun i => optEv (c i) (g i)) = (l.filter c).map g := by
  induction l with
  | nil => rfl
  | cons x xs ih =>
    cases hx : c x <;>
      simp [List.flatMap_cons, hx, optEv_true, optEv_false, ih, List.filter_cons]

/-! ### Claim theorems about the step scheduler -/

/-- Claim C2: starting the loop with `global_step` restored to
`steps + 1` runs zero iterations — no training-step, metric, validation,
checkpoint or plot invocation — and still writes the finished marker exactly
once: the whole trace is the single finished event. -/
theorem resume_past_end (S : Type) (f : Flags) (val : Nat → Option S) :
    main_loop f val (f.steps + 1) = [Event.finished] := by
  rw [main_loop, Nat.sub_self]
  rfl

/-- Claim C1 (amended): with trainEvery=500, valEvery=4000, totalSteps=8000,
time-only mode off and a run starting at step 0, the validation hook is
invoked exactly at loop steps 0, 4000 and 8000 (step 0 also satisfies
`0 % 4000 == 0`), once each — in particular with no double invocation at the
final step 8000. -/
theorem validation_cadence (S : Type) (val : Nat → Option S) (j : Nat) :
    (Event.validation j ∈ main_loop cadenceFlags val 0
      ↔ (j = 0 ∨ j = 4000 ∨ j = 8000))
    ∧ ((main_loop cadenceFlags val 0).filter isValidationEv).Nodup := by
  constructor
  · rw [validation_mem_main_loop cadenceFlags val rfl 0 j]
    have hv : valCond cadenceFlags j = true ↔ (j % 4000 = 0 ∨ j = 8000) := by
      simp [valCond, cadenceFlags]
    have hs : cadenceFlags.steps = 8000 := rfl
    rw [hv, hs]
    omega
  · have hfun : (fun i => ((runBody cadenceFlags val i i).2).filter isValidationEv)
        = fun i => optEv (valCond cadenceFlags i) (Event.validation i) :=
      funext (filter_validation_runBody cadenceFlags val rfl)
    have hfil : (main_loop cadenceFlags val 0).filter isValidationEv
        = ((List.range' 0 (cadenceFlags.steps + 1 - 0)).filter
            (valCond cadenceFlags)).map Event.validation := by
      rw [main_loop_eq, List.filter_append, filter_flatMap, hfun, flatMap_optEv]
      rw [show List.filter isValidationEv [(Event.finished : Event S)] = [] from rfl,
          List.append_nil]
    rw [hfil]
    exact List.Nodup.map (fun a b hab => by injection hab)
      ((List.nodup_range' _ _).filter _)

/-- Claim C1 as stated is false on the code: the validation hook also fires
at loop step 0 (0 % 4000 == 0), a step outside the claimed set {4000, 8000}. -/
theorem validation_cadence_cex :
    Event.validation 0 ∈ main_loop cadenceFlags valNone 0
    ∧ (0 : Nat) ∉ ([4000, 8000] : List Nat) := by
  constructor
  · exact (validation_mem_main_loop cadenceFlags valNone rfl 0 0).mpr (by decide)
  · decide

theorem checkpoint_mem_main_loop {S : Type} (f : Flags) (val : Nat → Option S)
    (h : f.time_training = false) (r i st : Nat) (sc : Option S) :
    Event.checkpoint i st sc ∈ main_loop f val r ↔
      (r ≤ i ∧ i ≤ f.steps ∧ st = i ∧ sc = capturedScore f val i
        ∧ ckptCond f val i = true) := by
  rw [main_loop_eq]
  simp only [List.mem_append, List.mem_flatMap, List.mem_singleton]
  constructor
  · rintro (⟨i', hi', hmem⟩ | hfin)
    · rcases (checkpoint_mem_runBody f val h i' i st sc).mp hmem with ⟨hc, rfl, hst, hsc⟩
      rcases List.mem_range'_1.mp hi' with ⟨h1, h2⟩
      exact ⟨h1, by omega, hst, hsc, hc⟩
    · exact absurd hfin (by simp)
  · rintro ⟨h1, h2, hst, hsc, hc⟩
    left
    exact ⟨i, List.mem_range'_1.mpr ⟨h1, by omega⟩,
      (checkpoint_mem_runBody f val h i i st sc).mpr ⟨hc, rfl, hst, hsc⟩⟩

/-- Claim C4 (amended): whenever the checkpoint condition holds at loop
iteration `i` (`i % model_steps == 0` or a validation score was just
captured), the save is invoked with step argument `i` — the value
`int(global_step - 1)`, i.e. the step counter before the increment performed
earlier in the iteration, which equals the loop index `i`, not `i - 1` —
together with the captured validation score (absent when validation did not
run); and checkpoint saves occur at no other iteration. -/
theorem checkpoint_step_argument (S : Type) (f : Flags) (val : Nat → Option S)
    (r i st : Nat) (sc : Option S) (h : f.time_training = false) :
    Event.checkpoint i st sc ∈ main_loop f val r ↔
      (r ≤ i ∧ i ≤ f.steps ∧ st = i ∧ sc = capturedScore f val i
        ∧ ckptCond f val i = true) :=
  checkpoint_mem_main_loop f val h r i st sc

/-- Witness for the checkpoint-step claim: at iteration 1 of the tiny
configuration the save is invoked with step argument 1. -/
theorem checkpoint_step_argument_witness :
    Event.checkpoint 1 1 (none : Option Nat) ∈ main_loop tinyFlags valNone 0 :=
  (checkpoint_step_argument Nat tinyFlags valNone 0 1 1 none rfl).mpr (by decide)

/-- Claim C4 as stated is false on the code: the save at iteration 1 of the
tiny configuration carries step argument 1, not 1 - 1 = 0. -/
theorem checkpoint_step_argument_cex :
    ¬ (∀ (i st : Nat) (sc : Option Nat),
        Event.checkpoint i st sc ∈ main_loop tinyFlags valNone 0 → st = i - 1) := by
  intro hall
  have h1 : Event.checkpoint 1 1 (none : Option Nat) ∈ main_loop tinyFlags valNone 0 := by
    decide
  have := hall 1 1 none h1
  omega

/-- Claim C5 (amended): when time-only mode is configured, every loop
iteration emits exactly the training-step invocation and a timing record;
the `continue` skips steps 4–7 entirely, so train-metrics, validation,
checkpoint AND the plotting hook never fire, while the finished marker still
fires once on exit. -/
theorem time_training_skips_plots (S : Type) (f : Flags) (val : Nat → Option S)
    (r : Nat) (h : f.time_training = true) :
    main_loop f val r =
      ((List.range' r (f.steps + 1 - r)).flatMap fun i =>
        [Event.train_step i, Event.timing (i + 1)]) ++ [Event.finished] := by
  rw [main_loop_eq]
  have hfun : (fun i => (runBody f val (i : Nat) i).2)
      = fun i => [Event.train_step i, Event.timing (i + 1)] := by
    funext i
    simp [runBody, h]
  rw [hfun]

/-- Witness for the time-only claim: the concrete two-iteration trace. -/
theorem time_training_skips_plots_witness :
    main_loop tinyTimeFlags valNone 0 =
      [Event.train_step 0, Event.timing 1, Event.train_step 1, Event.timing 2,
       Event.finished] :=
  (time_training_skips_plots Nat tinyTimeFlags valNone 0 rfl).trans (by decide)

/-- Claim C5 as stated is false on the code: in time-only mode the plotting
hook does not fire at iteration 1 even though 1 % log_plots_steps == 0. -/
theorem time_training_skips_plots_cex :
    1 % tinyTimeFlags.log_plots_steps = 0
    ∧ Event.plot 1 ∉ main_loop tinyTimeFlags valNone 0 := by
  constructor
  · decide
  · decide

end Codats
